import Mathlib

/-!
# Battery state node (`src/bb-blue-battery-state.cpp`)

A shallow embedding of the `BatteryState` class and of the body of the polling loop
in `main`.

Modelling conventions.

* `double` / `float32` values are exact rationals (`ℚ`); the decimal literals of the
  source (`4.15`, `3.3`, `1.176470588`, `3.882352941`) denote their exact decimal values.
* The two ADC reads `rc_adc_batt()` and `rc_adc_dc_jack()` are external; the values they
  return in one cycle are the arguments `adc_batt` and `adc_dc_jack`.
* `sensor_msgs::BatteryState` is an external message type.  Only the five fields the
  program writes are kept; the remaining fields are never assigned by the program.
* The publisher handle is external; `Publish` yields the record that is handed to it.
-/

namespace BBBlueBattery

/-- The fields of `sensor_msgs::BatteryState` that the node writes. -/
structure BatteryStateMsg where
  voltage : ℚ
  percentage : ℚ
  power_supply_status : Nat
  power_supply_technology : Nat
  present : Bool
  deriving DecidableEq

/-- The data members of `class BatteryState` (the publisher handle apart). -/
structure BatteryState where
  battery_msg_ : BatteryStateMsg
  min_cell_voltage : ℚ
  max_cell_voltage : ℚ
  deriving DecidableEq

/-- The line 40 constant: `#define VOLTAGE_DISCONNECT 1`. -/
def VOLTAGE_DISCONNECT : ℚ := 1

/-- A freshly value-initialised ROS message: every numeric field is zero, `present` is
`false`. -/
def BatteryStateMsg.zero : BatteryStateMsg :=
  { voltage := 0, percentage := 0, power_supply_status := 0,
    power_supply_technology := 0, present := false }

/-- The constructor `BatteryState::BatteryState` (lines 48-65).  The three arguments are
the values delivered by the parameter server for `power_supply_technology` (an `int`),
`min_cell_voltage` and `max_cell_voltage`.  The cast `(uint8_t)pst` reduces modulo 256. -/
def BatteryState.construct (pst : Int) (min_cell max_cell : ℚ) : BatteryState :=
  let battery_msg_ := BatteryStateMsg.zero
  let battery_msg_ := { battery_msg_ with power_supply_technology := (pst % 256).toNat }
  -- battery present and full
  let battery_msg_ := { battery_msg_ with percentage := 100 }
  let battery_msg_ := { battery_msg_ with present := true }
  let battery_msg_ := { battery_msg_ with power_supply_status := 0 }
  { battery_msg_ := battery_msg_, min_cell_voltage := min_cell, max_cell_voltage := max_cell }

/-- What one call of `calculateBatteryCondition` writes to the log. -/
inductive LogLine where
  /-- The `ROS_ERROR` of line 79. -/
  | cantReadVoltages : LogLine
  /-- The `ROS_INFO` of lines 121-122: pack, cell, jack voltage and `percentage * 100`. -/
  | info (pack cell jack percent : ℚ) : LogLine
  deriving DecidableEq

/-- The outcome of one call of `calculateBatteryCondition`: the value returned (`none` when
control reaches the end of the body, which has no `return` statement), the object after
the call and the line logged. -/
structure CalcResult where
  ret : Option Int
  state : BatteryState
  log : LogLine
  deriving DecidableEq

/-- The method `BatteryState::calculateBatteryCondition` (lines 67-127). -/
def calculateBatteryCondition (self : BatteryState) (adc_batt adc_dc_jack : ℚ) : CalcResult :=
  -- read in the voltage of the 2S pack and DC jack
  let pack_voltage := adc_batt
  let jack_voltage := adc_dc_jack
  -- sanity check
  if pack_voltage < 0 ∨ jack_voltage < 0 then
    { ret := some (-1), state := self, log := LogLine.cantReadVoltages }
  else
    let battery_msg_ := self.battery_msg_
    -- check if a pack is on the 2S balance connector
    let disconnected : Bool := decide (pack_voltage < VOLTAGE_DISCONNECT)
    let pack_voltage := if disconnected then 0 else pack_voltage
    let battery_msg_ :=
      if disconnected then { battery_msg_ with present := false } else battery_msg_
    let jack_voltage := if jack_voltage < VOLTAGE_DISCONNECT then 0 else jack_voltage
    -- 2S pack, so divide by two for cell voltage
    let cell_voltage := pack_voltage / 2
    let battery_msg_ := { battery_msg_ with voltage := pack_voltage }
    let battery_msg_ :=
      if cell_voltage ≥ 4.15 then
        { battery_msg_ with percentage := 100, power_supply_status := 4 }
      else if cell_voltage ≤ 3.3 then
        { battery_msg_ with percentage := 0 }
      else
        { battery_msg_ with percentage := 1.176470588 * cell_voltage - 3.882352941 }
    { ret := none,
      state := { self with battery_msg_ := battery_msg_ },
      log := LogLine.info pack_voltage cell_voltage jack_voltage (battery_msg_.percentage * 100) }

/-- The method `BatteryState::Publish` (lines 129-132): the record handed to the publisher. -/
def Publish (self : BatteryState) : BatteryStateMsg :=
  self.battery_msg_

/-- One iteration of the `while` loop of `main` (lines 161-168) on the reading pair
`(pack, jack)`: the object after the iteration and the record published in it. -/
def loopBody (batteryState : BatteryState) (reading : ℚ × ℚ) : BatteryState × BatteryStateMsg :=
  let batteryState := (calculateBatteryCondition batteryState reading.1 reading.2).state
  (batteryState, Publish batteryState)

/-- The object after the loop has run once for each reading pair of the list. -/
def runLoop (batteryState : BatteryState) (readings : List (ℚ × ℚ)) : BatteryState :=
  readings.foldl (fun s r => (loopBody s r).1) batteryState

/-- The records published by the loop, one per reading pair, in order. -/
def published (batteryState : BatteryState) : List (ℚ × ℚ) → List BatteryStateMsg
  | [] => []
  | r :: rs => (loopBody batteryState r).2 :: published (loopBody batteryState r).1 rs

/-! ## One call on the success path -/

/-- On non-negative readings the call does not take the error return. -/
lemma calc_state_of_nonneg (self : BatteryState) (pack jack : ℚ) (hp : 0 ≤ pack) (hj : 0 ≤ jack) :
    (calculateBatteryCondition self pack jack).state.battery_msg_ =
      if (if pack < 1 then (0 : ℚ) else pack) / 2 ≥ 4.15 then
        { self.battery_msg_ with
            present := if pack < 1 then false else self.battery_msg_.present,
            voltage := if pack < 1 then 0 else pack,
            percentage := 100, power_supply_status := 4 }
      else if (if pack < 1 then (0 : ℚ) else pack) / 2 ≤ 3.3 then
        { self.battery_msg_ with
            present := if pack < 1 then false else self.battery_msg_.present,
            voltage := if pack < 1 then 0 else pack,
            percentage := 0 }
      else
        { self.battery_msg_ with
            present := if pack < 1 then false else self.battery_msg_.present,
            voltage := if pack < 1 then 0 else pack,
            percentage := 1.176470588 * ((if pack < 1 then (0 : ℚ) else pack) / 2) - 3.882352941 } := by
  have h : ¬ (pack < 0 ∨ jack < 0) := by
    rintro (h | h) <;> linarith
  simp only [calculateBatteryCondition, if_neg h, VOLTAGE_DISCONNECT]
  by_cases h1 : pack < 1 <;> simp [h1]

/-- On a negative reading the call returns at line 81 with the object untouched. -/
lemma calc_of_neg (self : BatteryState) (pack jack : ℚ) (h : pack < 0 ∨ jack < 0) :
    calculateBatteryCondition self pack jack =
      { ret := some (-1), state := self, log := LogLine.cantReadVoltages } := by
  simp only [calculateBatteryCondition, if_pos h]

/-- The configured cell-voltage bounds are never written by a call. -/
lemma calc_state_bounds (self : BatteryState) (pack jack : ℚ) :
    (calculateBatteryCondition self pack jack).state.min_cell_voltage = self.min_cell_voltage ∧
    (calculateBatteryCondition self pack jack).state.max_cell_voltage = self.max_cell_voltage := by
  by_cases h : pack < 0 ∨ jack < 0
  · rw [calc_of_neg self pack jack h]
    exact ⟨rfl, rfl⟩
  · constructor <;> simp [calculateBatteryCondition, h]

/-- The percentage stored by a call on non-negative readings, as a function of the raw
pack reading. -/
lemma calc_percentage (self : BatteryState) (pack jack : ℚ) (hp : 0 ≤ pack) (hj : 0 ≤ jack) :
    (calculateBatteryCondition self pack jack).state.battery_msg_.percentage =
      if (if pack < 1 then (0 : ℚ) else pack) / 2 ≥ 4.15 then 100
      else if (if pack < 1 then (0 : ℚ) else pack) / 2 ≤ 3.3 then 0
      else 1.176470588 * ((if pack < 1 then (0 : ℚ) else pack) / 2) - 3.882352941 := by
  rw [calc_state_of_nonneg self pack jack hp hj]
  split_ifs <;> rfl

/-- The presence flag after a call on non-negative readings: cleared below the disconnect
threshold, otherwise whatever it was before. -/
lemma calc_present (self : BatteryState) (pack jack : ℚ) (hp : 0 ≤ pack) (hj : 0 ≤ jack) :
    (calculateBatteryCondition self pack jack).state.battery_msg_.present =
      if pack < 1 then false else self.battery_msg_.present := by
  rw [calc_state_of_nonneg self pack jack hp hj]
  split_ifs <;> rfl

/-- The voltage stored by a call on non-negative readings. -/
lemma calc_voltage (self : BatteryState) (pack jack : ℚ) (hp : 0 ≤ pack) (hj : 0 ≤ jack) :
    (calculateBatteryCondition self pack jack).state.battery_msg_.voltage =
      if pack < 1 then 0 else pack := by
  rw [calc_state_of_nonneg self pack jack hp hj]
  split_ifs <;> rfl

/-- The charging-status code after a call, for arbitrary readings: set to 4 exactly on the
branch of line 106, otherwise left as it was. -/
lemma calc_status (self : BatteryState) (pack jack : ℚ) :
    (calculateBatteryCondition self pack jack).state.battery_msg_.power_supply_status =
      if 0 ≤ pack ∧ 0 ≤ jack ∧ pack / 2 ≥ 4.15 then 4
      else self.battery_msg_.power_supply_status := by
  by_cases hn : pack < 0 ∨ jack < 0
  · rw [calc_of_neg self pack jack hn]
    have : ¬ (0 ≤ pack ∧ 0 ≤ jack ∧ pack / 2 ≥ 4.15) := by
      rintro ⟨h1, h2, -⟩
      rcases hn with h | h <;> linarith
    rw [if_neg this]
  · have hp : 0 ≤ pack := by
      by_contra h
      exact hn (Or.inl (lt_of_not_ge h))
    have hj : 0 ≤ jack := by
      by_contra h
      exact hn (Or.inr (lt_of_not_ge h))
    rw [calc_state_of_nonneg self pack jack hp hj]
    by_cases h1 : pack < 1
    · have hc : ¬ ((0 : ℚ) / 2 ≥ 4.15) := by norm_num
      have hf : ¬ (0 ≤ pack ∧ 0 ≤ jack ∧ pack / 2 ≥ 4.15) := by
        rintro ⟨-, -, h3⟩
        norm_num at h3
        linarith
      simp only [if_pos h1, if_neg hc, if_neg hf]
      split_ifs <;> rfl
    · simp only [if_neg h1]
      by_cases h2 : pack / 2 ≥ 4.15
      · rw [if_pos h2, if_pos ⟨hp, hj, h2⟩]
      · have hf : ¬ (0 ≤ pack ∧ 0 ≤ jack ∧ pack / 2 ≥ 4.15) := fun h => h2 h.2.2
        rw [if_neg h2, if_neg hf]
        split_ifs <;> rfl

/-- The record published in an iteration is the message of the object after it. -/
lemma loopBody_snd (s : BatteryState) (r : ℚ × ℚ) :
    (loopBody s r).2 = (loopBody s r).1.battery_msg_ := rfl

/-- The object after an iteration is the object after the call of that iteration. -/
lemma loopBody_fst (s : BatteryState) (r : ℚ × ℚ) :
    (loopBody s r).1 = (calculateBatteryCondition s r.1 r.2).state := rfl

/-! ## The clamped ends -/

/-- C1 (the code at the reading 8.3 V, jack 0 V): whatever the prior record, the call
stores the percentage 100, which is not 1.0, and the status code 4. -/
theorem C1_full_pack_stores_percentage_100 (self : BatteryState) :
    (calculateBatteryCondition self 8.3 0).state.battery_msg_.percentage = 100 ∧
    (calculateBatteryCondition self 8.3 0).state.battery_msg_.percentage ≠ 1.0 ∧
    (calculateBatteryCondition self 8.3 0).state.battery_msg_.power_supply_status = 4 := by
  have hp : (calculateBatteryCondition self 8.3 0).state.battery_msg_.percentage = 100 := by
    rw [calc_percentage self 8.3 0 (by norm_num) (by norm_num)]
    norm_num
  refine ⟨hp, ?_, ?_⟩
  · rw [hp]
    norm_num
  · rw [calc_status]
    norm_num

/-- C2: for every prior record and every pair of non-negative readings whose cell voltage
(half the pack reading) is at most 3.30, the call stores the percentage 0. -/
theorem C2_low_cell_stores_percentage_zero (self : BatteryState) (pack jack : ℚ)
    (hp : 0 ≤ pack) (hj : 0 ≤ jack) (hcell : pack / 2 ≤ 3.30) :
    (calculateBatteryCondition self pack jack).state.battery_msg_.percentage = 0 := by
  rw [calc_percentage self pack jack hp hj]
  by_cases h1 : pack < 1
  · simp only [if_pos h1]
    norm_num
  · simp only [if_neg h1]
    have h2 : ¬ (pack / 2 ≥ 4.15) := by
      intro h
      norm_num at h hcell
      linarith
    have h3 : pack / 2 ≤ 3.3 := by
      norm_num at hcell ⊢
      linarith
    rw [if_neg h2, if_pos h3]

/-- Witness for C2 at the pack reading 6.6 V on a freshly constructed object. -/
theorem C2_low_cell_stores_percentage_zero_witness :
    (0 : ℚ) ≤ 6.6 ∧ (0 : ℚ) ≤ 0 ∧ (6.6 : ℚ) / 2 ≤ 3.30 ∧
    (calculateBatteryCondition (BatteryState.construct 3 3.3 4.15) 6.6 0).state.battery_msg_.percentage
      = 0 :=
  ⟨by norm_num, by norm_num, by norm_num,
    C2_low_cell_stores_percentage_zero (BatteryState.construct 3 3.3 4.15) 6.6 0
      (by norm_num) (by norm_num) (by norm_num)⟩

/-- C4: for every prior record, a pack reading in [0, 1.0) together with a non-negative
jack reading leaves the record with the presence flag cleared, voltage 0 and percentage 0. -/
theorem C4_disconnected_pack (self : BatteryState) (pack jack : ℚ)
    (hp : 0 ≤ pack) (hlt : pack < 1.0) (hj : 0 ≤ jack) :
    (calculateBatteryCondition self pack jack).state.battery_msg_.present = false ∧
    (calculateBatteryCondition self pack jack).state.battery_msg_.voltage = 0 ∧
    (calculateBatteryCondition self pack jack).state.battery_msg_.percentage = 0 := by
  have h1 : pack < 1 := by
    norm_num at hlt
    exact hlt
  refine ⟨?_, ?_, ?_⟩
  · rw [calc_present self pack jack hp hj, if_pos h1]
  · rw [calc_voltage self pack jack hp hj, if_pos h1]
  · rw [calc_percentage self pack jack hp hj]
    simp only [if_pos h1]
    norm_num

/-- Witness for C4 at the pack reading 0.5 V on a freshly constructed object. -/
theorem C4_disconnected_pack_witness :
    (0 : ℚ) ≤ 0.5 ∧ (0.5 : ℚ) < 1.0 ∧ (0 : ℚ) ≤ 0 ∧
    (calculateBatteryCondition (BatteryState.construct 3 3.3 4.15) 0.5 0).state.battery_msg_.present
      = false ∧
    (calculateBatteryCondition (BatteryState.construct 3 3.3 4.15) 0.5 0).state.battery_msg_.voltage
      = 0 ∧
    (calculateBatteryCondition (BatteryState.construct 3 3.3 4.15) 0.5 0).state.battery_msg_.percentage
      = 0 :=
  ⟨by norm_num, by norm_num, by norm_num,
    C4_disconnected_pack (BatteryState.construct 3 3.3 4.15) 0.5 0
      (by norm_num) (by norm_num) (by norm_num)⟩

/-! ## The error return -/

/-- C5: when either raw reading is negative the call returns -1 and the object after the
call is the object before it, field for field; the loop iteration therefore publishes the
unchanged record, so that after any earlier iteration the two published records agree. -/
theorem C5_negative_reading_keeps_record (self : BatteryState) (pack jack : ℚ)
    (hneg : pack < 0 ∨ jack < 0) :
    (calculateBatteryCondition self pack jack).ret = some (-1) ∧
    (calculateBatteryCondition self pack jack).state = self ∧
    (calculateBatteryCondition self pack jack).log = LogLine.cantReadVoltages ∧
    loopBody self (pack, jack) = (self, self.battery_msg_) ∧
    ∀ (before : BatteryState) (prev : ℚ × ℚ),
      published before [prev, (pack, jack)] = [(loopBody before prev).2, (loopBody before prev).2] := by
  have hc := calc_of_neg self pack jack hneg
  refine ⟨by rw [hc], by rw [hc], by rw [hc], ?_, ?_⟩
  · simp only [loopBody, Publish, hc]
  · intro before prev
    simp only [published, loopBody, Publish, calc_of_neg _ pack jack hneg]

/-- Witness for C5: a pack reading of -1 after a cycle that read 7.4 V. -/
theorem C5_negative_reading_keeps_record_witness :
    ((-1 : ℚ) < 0 ∨ (0 : ℚ) < 0) ∧
    (calculateBatteryCondition (BatteryState.construct 3 3.3 4.15) (-1) 0).ret = some (-1) ∧
    (calculateBatteryCondition (BatteryState.construct 3 3.3 4.15) (-1) 0).state
      = BatteryState.construct 3 3.3 4.15 ∧
    published (BatteryState.construct 3 3.3 4.15) [(7.4, 0), (-1, 0)]
      = [(loopBody (BatteryState.construct 3 3.3 4.15) (7.4, 0)).2,
         (loopBody (BatteryState.construct 3 3.3 4.15) (7.4, 0)).2] :=
  have h : ((-1 : ℚ) < 0 ∨ (0 : ℚ) < 0) := Or.inl (by norm_num)
  ⟨h,
    (C5_negative_reading_keeps_record (BatteryState.construct 3 3.3 4.15) (-1) 0 h).1,
    (C5_negative_reading_keeps_record (BatteryState.construct 3 3.3 4.15) (-1) 0 h).2.1,
    (C5_negative_reading_keeps_record (BatteryState.construct 3 3.3 4.15) (-1) 0 h).2.2.2.2
      (BatteryState.construct 3 3.3 4.15) (7.4, 0)⟩

/-! ## The constructor -/

/-- C6 (the code, for every configuration): the constructed record has the presence flag
set and the percentage 100, which is not 1.0. -/
theorem C6_constructed_record (pst : Int) (min_cell max_cell : ℚ) :
    (BatteryState.construct pst min_cell max_cell).battery_msg_.present = true ∧
    (BatteryState.construct pst min_cell max_cell).battery_msg_.percentage = 100 ∧
    (BatteryState.construct pst min_cell max_cell).battery_msg_.percentage ≠ 1.0 := by
  refine ⟨rfl, rfl, ?_⟩
  show (100 : ℚ) ≠ 1.0
  norm_num

/-! ## The interpolation branch -/

/-- On non-negative readings whose cell voltage lies strictly between 3.3 and 4.15 the
call takes the branch of line 118. -/
lemma calc_percentage_mid (self : BatteryState) (pack jack : ℚ) (hp : 0 ≤ pack) (hj : 0 ≤ jack)
    (hlo : 3.3 < pack / 2) (hhi : pack / 2 < 4.15) :
    (calculateBatteryCondition self pack jack).state.battery_msg_.percentage =
      1.176470588 * (pack / 2) - 3.882352941 := by
  rw [calc_percentage self pack jack hp hj]
  have h1 : ¬ pack < 1 := by
    intro h
    norm_num at hlo
    linarith
  have h2 : ¬ (pack / 2 ≥ 4.15) := not_le.mpr hhi
  have h3 : ¬ (pack / 2 ≤ 3.3) := not_le.mpr hlo
  simp only [if_neg h1, if_neg h2, if_neg h3]

/-- C3: over exact arithmetic, for non-negative readings with cell voltage strictly between
3.30 and 4.15 the stored percentage is 1.176470588 * cell - 3.882352941; it is within 10^-9
of (cell - 3.3) / 0.85; and it is strictly increasing in the cell voltage on that interval
(whatever the prior records and jack readings of the two calls compared). -/
theorem C3_interpolation (self : BatteryState) (pack jack : ℚ)
    (hp : 0 ≤ pack) (hj : 0 ≤ jack) (hlo : 3.30 < pack / 2) (hhi : pack / 2 < 4.15) :
    (calculateBatteryCondition self pack jack).state.battery_msg_.percentage =
      1.176470588 * (pack / 2) - 3.882352941 ∧
    |(calculateBatteryCondition self pack jack).state.battery_msg_.percentage
        - (pack / 2 - 3.3) / 0.85| < 1 / 10 ^ 9 ∧
    ∀ (self' : BatteryState) (pack' jack' : ℚ), 0 ≤ pack' → 0 ≤ jack' →
      3.30 < pack' / 2 → pack' / 2 < 4.15 → pack / 2 < pack' / 2 →
      (calculateBatteryCondition self pack jack).state.battery_msg_.percentage <
        (calculateBatteryCondition self' pack' jack').state.battery_msg_.percentage := by
  have hlo' : (3.3 : ℚ) < pack / 2 := by
    norm_num at hlo ⊢
    exact hlo
  have hmid := calc_percentage_mid self pack jack hp hj hlo' hhi
  refine ⟨hmid, ?_, ?_⟩
  · rw [hmid, abs_lt]
    norm_num at hlo' hhi ⊢
    constructor <;> linarith
  · intro self' pack' jack' hp' hj' hlo2 hhi2 hlt
    have hlo2' : (3.3 : ℚ) < pack' / 2 := by
      norm_num at hlo2 ⊢
      exact hlo2
    rw [hmid, calc_percentage_mid self' pack' jack' hp' hj' hlo2' hhi2]
    have : (1.176470588 : ℚ) * (pack / 2) < 1.176470588 * (pack' / 2) :=
      mul_lt_mul_of_pos_left hlt (by norm_num)
    linarith

/-- Witness for C3 at the pack readings 7.4 V and 8.0 V on a freshly constructed object. -/
theorem C3_interpolation_witness :
    (0 : ℚ) ≤ 7.4 ∧ (0 : ℚ) ≤ 0 ∧ (3.30 : ℚ) < 7.4 / 2 ∧ (7.4 : ℚ) / 2 < 4.15 ∧
    (calculateBatteryCondition (BatteryState.construct 3 3.3 4.15) 7.4 0).state.battery_msg_.percentage
      = 1.176470588 * (7.4 / 2) - 3.882352941 ∧
    |(calculateBatteryCondition (BatteryState.construct 3 3.3 4.15) 7.4 0).state.battery_msg_.percentage
        - (7.4 / 2 - 3.3) / 0.85| < 1 / 10 ^ 9 ∧
    (calculateBatteryCondition (BatteryState.construct 3 3.3 4.15) 7.4 0).state.battery_msg_.percentage
      < (calculateBatteryCondition (BatteryState.construct 3 3.3 4.15) 8.0 0).state.battery_msg_.percentage :=
  have h := C3_interpolation (BatteryState.construct 3 3.3 4.15) 7.4 0
    (by norm_num) (by norm_num) (by norm_num) (by norm_num)
  ⟨by norm_num, by norm_num, by norm_num, by norm_num, h.1, h.2.1,
    h.2.2 (BatteryState.construct 3 3.3 4.15) 8.0 0
      (by norm_num) (by norm_num) (by norm_num) (by norm_num) (by norm_num)⟩

/-- C8 as stated fails: at the pack reading 7.4 V the stored percentage is more than
0.0001 away from 0.3765. -/
theorem C8_counterexample :
    ¬ ((calculateBatteryCondition (BatteryState.construct 3 3.3 4.15) 7.4 0).state.battery_msg_.percentage
          = 1.176470588 * 3.7 - 3.882352941 ∧
       |(calculateBatteryCondition (BatteryState.construct 3 3.3 4.15) 7.4 0).state.battery_msg_.percentage
          - 0.3765| ≤ 0.0001) := by
  rintro ⟨h1, h2⟩
  rw [h1, abs_le] at h2
  norm_num at h2

/-- C8 amended: at the pack reading 7.4 V and any non-negative jack reading the stored
percentage is 1.176470588 * 3.7 - 3.882352941, and that value is within 0.0001 of 0.4706
(47.06 %) over exact arithmetic. -/
theorem C8_pack_7_4_percentage (self : BatteryState) (jack : ℚ) (hj : 0 ≤ jack) :
    (calculateBatteryCondition self 7.4 jack).state.battery_msg_.percentage
      = 1.176470588 * 3.7 - 3.882352941 ∧
    |(calculateBatteryCondition self 7.4 jack).state.battery_msg_.percentage - 0.4706| < 0.0001 := by
  have h := calc_percentage_mid self 7.4 jack (by norm_num) hj (by norm_num) (by norm_num)
  have hv : (calculateBatteryCondition self 7.4 jack).state.battery_msg_.percentage
      = 1.176470588 * 3.7 - 3.882352941 := by
    rw [h]
    norm_num
  refine ⟨hv, ?_⟩
  rw [hv, abs_lt]
  norm_num

/-- Witness for the amended C8 with the jack reading 0 on a freshly constructed object. -/
theorem C8_pack_7_4_percentage_witness :
    (0 : ℚ) ≤ 0 ∧
    (calculateBatteryCondition (BatteryState.construct 3 3.3 4.15) 7.4 0).state.battery_msg_.percentage
      = 1.176470588 * 3.7 - 3.882352941 ∧
    |(calculateBatteryCondition (BatteryState.construct 3 3.3 4.15) 7.4 0).state.battery_msg_.percentage
      - 0.4706| < 0.0001 :=
  ⟨le_refl 0, C8_pack_7_4_percentage (BatteryState.construct 3 3.3 4.15) 0 (le_refl 0)⟩

/-- C9 as stated fails: the pack reading 6.6000000002 V (cell voltage 3.3000000001 V) takes
the interpolation branch and the stored percentage is negative. -/
theorem C9_counterexample :
    (0 : ℚ) ≤ 6.6000000002 ∧ (0 : ℚ) ≤ 0 ∧
    (3.30 : ℚ) < 6.6000000002 / 2 ∧ (6.6000000002 : ℚ) / 2 < 4.15 ∧
    ¬ (0 ≤ (calculateBatteryCondition (BatteryState.construct 3 3.3 4.15)
              6.6000000002 0).state.battery_msg_.percentage ∧
       (calculateBatteryCondition (BatteryState.construct 3 3.3 4.15)
              6.6000000002 0).state.battery_msg_.percentage ≤ 1) := by
  refine ⟨by norm_num, by norm_num, by norm_num, by norm_num, ?_⟩
  rw [calc_percentage_mid _ 6.6000000002 0 (by norm_num) (by norm_num) (by norm_num) (by norm_num)]
  norm_num

/-- C9 amended: over exact arithmetic, for non-negative readings with cell voltage strictly
between 3.30 and 4.15 the stored percentage lies strictly between -6 * 10^-10 and 1; it is
non-negative exactly when the cell voltage is at least 3.882352941 / 1.176470588 (which is
below 3.300000001), so it is never above 1.0 for a cell voltage just below 4.15. -/
theorem C9_interpolation_range (self : BatteryState) (pack jack : ℚ)
    (hp : 0 ≤ pack) (hj : 0 ≤ jack) (hlo : 3.30 < pack / 2) (hhi : pack / 2 < 4.15) :
    -(6 / 10 ^ 10) < (calculateBatteryCondition self pack jack).state.battery_msg_.percentage ∧
    (calculateBatteryCondition self pack jack).state.battery_msg_.percentage < 1 ∧
    (0 ≤ (calculateBatteryCondition self pack jack).state.battery_msg_.percentage ↔
      3.882352941 / 1.176470588 ≤ pack / 2) ∧
    (3.882352941 / 1.176470588 : ℚ) < 3.300000001 := by
  have hlo' : (3.3 : ℚ) < pack / 2 := by
    norm_num at hlo ⊢
    exact hlo
  rw [calc_percentage_mid self pack jack hp hj hlo' hhi]
  norm_num at hlo' hhi ⊢
  refine ⟨by linarith, by linarith, ?_⟩
  constructor <;> intro h <;> linarith

/-- Witness for the amended C9 at the pack reading 7.4 V on a freshly constructed object. -/
theorem C9_interpolation_range_witness :
    (0 : ℚ) ≤ 7.4 ∧ (0 : ℚ) ≤ 0 ∧ (3.30 : ℚ) < 7.4 / 2 ∧ (7.4 : ℚ) / 2 < 4.15 ∧
    -(6 / 10 ^ 10) <
      (calculateBatteryCondition (BatteryState.construct 3 3.3 4.15) 7.4 0).state.battery_msg_.percentage ∧
    (calculateBatteryCondition (BatteryState.construct 3 3.3 4.15) 7.4 0).state.battery_msg_.percentage
      < 1 ∧
    (0 ≤ (calculateBatteryCondition (BatteryState.construct 3 3.3 4.15)
            7.4 0).state.battery_msg_.percentage ↔
      3.882352941 / 1.176470588 ≤ (7.4 : ℚ) / 2) ∧
    (3.882352941 / 1.176470588 : ℚ) < 3.300000001 :=
  ⟨by norm_num, by norm_num, by norm_num, by norm_num,
    C9_interpolation_range (BatteryState.construct 3 3.3 4.15) 7.4 0
      (by norm_num) (by norm_num) (by norm_num) (by norm_num)⟩

/-! ## The presence flag and the charging-status code across cycles -/

/-- No call sets the presence flag: a record whose flag is cleared keeps it cleared,
whatever the readings. -/
lemma calc_present_of_cleared (self : BatteryState) (pack jack : ℚ)
    (h : self.battery_msg_.present = false) :
    (calculateBatteryCondition self pack jack).state.battery_msg_.present = false := by
  by_cases hn : pack < 0 ∨ jack < 0
  · rw [calc_of_neg self pack jack hn]
    exact h
  · have hp : 0 ≤ pack := by
      by_contra h'
      exact hn (Or.inl (lt_of_not_ge h'))
    have hj : 0 ≤ jack := by
      by_contra h'
      exact hn (Or.inr (lt_of_not_ge h'))
    rw [calc_present self pack jack hp hj, h]
    split_ifs <;> rfl

/-- C7 (the code on the cycle 0.5 V followed by the cycle 7.4 V, from the constructed
record): the first cycle clears the presence flag, and after the second cycle, whose pack
reading 7.4 V is at least 1.0 V and is stored as the voltage, the flag is still cleared. -/
theorem C7_present_not_restored :
    (runLoop (BatteryState.construct 3 3.3 4.15) [(0.5, 0)]).battery_msg_.present = false ∧
    (1.0 : ℚ) ≤ 7.4 ∧
    (runLoop (BatteryState.construct 3 3.3 4.15) [(0.5, 0), (7.4, 0)]).battery_msg_.voltage = 7.4 ∧
    (runLoop (BatteryState.construct 3 3.3 4.15) [(0.5, 0), (7.4, 0)]).battery_msg_.present
      = false := by
  have h1 : (runLoop (BatteryState.construct 3 3.3 4.15) [(0.5, 0)]).battery_msg_.present
      = false := by
    simp only [runLoop, List.foldl, loopBody_fst]
    rw [calc_present _ 0.5 0 (by norm_num) (by norm_num)]
    norm_num
  refine ⟨h1, by norm_num, ?_, ?_⟩
  · simp only [runLoop, List.foldl, loopBody_fst]
    rw [calc_voltage _ 7.4 0 (by norm_num) (by norm_num)]
    norm_num
  · simp only [runLoop, List.foldl, loopBody_fst] at h1 ⊢
    exact calc_present_of_cleared _ 7.4 0 h1

/-- The status code after the loop has consumed a list of readings, from any object: 4 if
some reading pair of the list took the branch of line 106, otherwise the code it had. -/
lemma runLoop_status (readings : List (ℚ × ℚ)) (s : BatteryState) :
    (runLoop s readings).battery_msg_.power_supply_status =
      if ∃ r ∈ readings, 0 ≤ r.1 ∧ 0 ≤ r.2 ∧ r.1 / 2 ≥ 4.15 then 4
      else s.battery_msg_.power_supply_status := by
  induction readings generalizing s with
  | nil => simp [runLoop]
  | cons r rs ih =>
    have hstep : runLoop s (r :: rs) = runLoop (loopBody s r).1 rs := rfl
    rw [hstep, ih, loopBody_fst, calc_status]
    by_cases hr : 0 ≤ r.1 ∧ 0 ≤ r.2 ∧ r.1 / 2 ≥ 4.15
    · have hex : ∃ r' ∈ r :: rs, 0 ≤ r'.1 ∧ 0 ≤ r'.2 ∧ r'.1 / 2 ≥ 4.15 :=
        ⟨r, List.mem_cons_self r rs, hr⟩
      rw [if_pos hr, if_pos hex]
      split_ifs <;> rfl
    · rw [if_neg hr]
      by_cases hrs : ∃ r' ∈ rs, 0 ≤ r'.1 ∧ 0 ≤ r'.2 ∧ r'.1 / 2 ≥ 4.15
      · have hex : ∃ r' ∈ r :: rs, 0 ≤ r'.1 ∧ 0 ≤ r'.2 ∧ r'.1 / 2 ≥ 4.15 := by
          obtain ⟨r', hmem, hr'⟩ := hrs
          exact ⟨r', List.mem_cons_of_mem r hmem, hr'⟩
        rw [if_pos hrs, if_pos hex]
      · have hex : ¬ ∃ r' ∈ r :: rs, 0 ≤ r'.1 ∧ 0 ≤ r'.2 ∧ r'.1 / 2 ≥ 4.15 := by
          rintro ⟨r', hmem, hr'⟩
          rcases List.mem_cons.mp hmem with heq | hmem'
          · exact hr (heq ▸ hr')
          · exact hrs ⟨r', hmem', hr'⟩
        rw [if_neg hrs, if_neg hex]

/-- C10: from the constructed record, after any finite sequence of reading pairs the status
code is 0 or 4; it is 4 exactly when some cycle so far had both readings non-negative and
half the pack reading at least 4.15; and once it is 4 it is 4 after every further sequence
of cycles, whatever their readings. -/
theorem C10_status_code_invariant (pst : Int) (min_cell max_cell : ℚ)
    (readings : List (ℚ × ℚ)) :
    ((runLoop (BatteryState.construct pst min_cell max_cell) readings).battery_msg_.power_supply_status
        = 0 ∨
      (runLoop (BatteryState.construct pst min_cell max_cell) readings).battery_msg_.power_supply_status
        = 4) ∧
    ((runLoop (BatteryState.construct pst min_cell max_cell) readings).battery_msg_.power_supply_status
        = 4 ↔
      ∃ r ∈ readings, 0 ≤ r.1 ∧ 0 ≤ r.2 ∧ r.1 / 2 ≥ 4.15) ∧
    ((runLoop (BatteryState.construct pst min_cell max_cell) readings).battery_msg_.power_supply_status
        = 4 →
      ∀ later : List (ℚ × ℚ),
        (runLoop (BatteryState.construct pst min_cell max_cell)
          (readings ++ later)).battery_msg_.power_supply_status = 4) := by
  have h0 : (BatteryState.construct pst min_cell max_cell).battery_msg_.power_supply_status = 0 :=
    rfl
  have hiff : (runLoop (BatteryState.construct pst min_cell max_cell)
        readings).battery_msg_.power_supply_status = 4 ↔
      ∃ r ∈ readings, 0 ≤ r.1 ∧ 0 ≤ r.2 ∧ r.1 / 2 ≥ 4.15 := by
    rw [runLoop_status, h0]
    by_cases hex : ∃ r ∈ readings, 0 ≤ r.1 ∧ 0 ≤ r.2 ∧ r.1 / 2 ≥ 4.15
    · rw [if_pos hex]
      exact ⟨fun _ => hex, fun _ => rfl⟩
    · rw [if_neg hex]
      exact ⟨fun h => absurd h (by decide), fun h => absurd h hex⟩
  refine ⟨?_, hiff, ?_⟩
  · rw [runLoop_status, h0]
    split_ifs
    · exact Or.inr rfl
    · exact Or.inl rfl
  · intro h4 later
    obtain ⟨r, hmem, hr⟩ := hiff.mp h4
    rw [runLoop_status]
    exact if_pos ⟨r, List.mem_append_left later hmem, hr⟩

/-- Witness for C10: a cycle reading 8.4 V followed by a cycle with the pack disconnected. -/
theorem C10_status_code_invariant_witness :
    (runLoop (BatteryState.construct 3 3.3 4.15) [(8.4, 0)]).battery_msg_.power_supply_status = 4 ∧
    (runLoop (BatteryState.construct 3 3.3 4.15)
      ([(8.4, 0)] ++ [(0.5, 0)])).battery_msg_.power_supply_status = 4 :=
  have h := C10_status_code_invariant 3 3.3 4.15 [(8.4, 0)]
  have h4 : (runLoop (BatteryState.construct 3 3.3 4.15)
      [(8.4, 0)]).battery_msg_.power_supply_status = 4 :=
    h.2.1.mpr ⟨(8.4, 0), List.mem_singleton.mpr rfl, by norm_num, by norm_num, by norm_num⟩
  ⟨h4, h.2.2 h4 [(0.5, 0)]⟩

end BBBlueBattery
